import Mathlib

/-!
# MPU6050 polling program (`src/main.c`)

A shallow embedding of the sensor driver and of the application loop of
`src/main.c`, and the properties of the written specification checked
against it.

* C integers are numbers with explicit wrap-around: an unsigned byte is a
  `Nat` below 256, an `int` of width `w` is represented by its bit pattern
  (a `Nat` below `2 ^ w`), an `int16_t` is the `Int` the pattern denotes in
  two's complement.
* The console (`uart.h`) and the two-wire transport (`twi_master.h`) are
  used through their calls only; every call
  into them is recorded as an `Event` in the trace of the machine, and the
  transport's answers are read from a sequence of `Response`s.
* `ERROR_CHECK` never returns on a fault (`while (1);`); an execution is
  therefore an `Outcome`: either control returned, or it is spinning.
-/

namespace Mpu

/-! ## Constants of `src/main.c` -/

def MPU6050_ADDR : Nat := 0x68
def ACCEL_XOUT_H : Nat := 0x3B
def PWR_MGMT_1 : Nat := 0x6B
def GYRO_XOUT_H : Nat := 0x43

/-- Modelled from the spec: the constant `SUCCESS` of `twi_master.h`, which
is not among the sources; the spec's error code is "zero means success,
any nonzero value is a fatal fault code". -/
def SUCCESS : Nat := 0

/-- Width in bits of the target's `int` (avr-gcc, the toolchain of
`<avr/io.h>` and `<util/delay.h>`). -/
def INT_WIDTH : Nat := 16

/-! ## Integer arithmetic of the decode expression -/

/-- The C operator `a << k` on an `int` of width `w`, on bit patterns: the
bits shifted past the width are lost. -/
def int_shl (w a k : Nat) : Nat := (a <<< k) % 2 ^ w

/-- The C operator `a | b` on bit patterns. -/
def int_or (a b : Nat) : Nat := a ||| b

/-- The conversion `(int16_t) e` of an `int` with bit pattern `p`: the low
16 bits, read in two's complement. -/
def to_int16 (p : Nat) : Int :=
  if p % 65536 < 32768 then ((p % 65536 : Nat) : Int) else ((p % 65536 : Nat) : Int) - 65536

/-- The conversion `(uint16_t) v` of a signed value. -/
def to_uint16 (v : Int) : Nat := (v % 65536).toNat

/-- The expression `(int16_t)(hi << 8 | lo)` of lines 91-93 and 119-121,
with `hi` and `lo` bytes promoted to an `int` of width `w`. -/
def axis_value (w hi lo : Nat) : Int := to_int16 (int_or (int_shl w hi 8) lo)

/-! ## Data model -/

/-- The struct `mpu_data_t` (three `int16_t` fields). -/
structure mpu_data_t where
  x : Int
  y : Int
  z : Int
  deriving DecidableEq

/-- The struct `mpu_gy_data_t` (three `int16_t` fields). -/
structure mpu_gy_data_t where
  gx : Int
  gy : Int
  gz : Int
  deriving DecidableEq

/-- One call into the console, the transport or the delay routine. Text
shown is the string literal of the call; the colour macros of `uart.h`
(`BR`, `BY`, `BG`, `RESET`, `CURSOR_RIGHT`) that surround some literals are
not among the sources and are left out. -/
inductive Event where
  /-- Call `uart_init(baud)`. -/
  | uart_init (baud : Nat)
  /-- Call `cli_reset()`. -/
  | cli_reset
  /-- Call `tw_init(TW_FREQ_100K, pullup)`. -/
  | tw_init (pullup : Bool)
  /-- Call `puts(text)`. -/
  | puts (text : String)
  /-- Call `printf(fmt, value)` with a `%d` format. -/
  | printf (fmt : String) (value : Int)
  /-- Call `printf("App error! error_code = 0x%02X\n", code)` of `ERROR_CHECK`. -/
  | app_error (code : Nat)
  /-- Call `tw_master_transmit(addr, data, len, flag)`; `data` are the `len`
  bytes handed over. -/
  | transmit (addr : Nat) (data : List Nat) (flag : Bool)
  /-- Call `tw_master_receive(addr, buffer, len)`. -/
  | receive (addr : Nat) (len : Nat)
  /-- Call `_delay_ms(ms)`. -/
  | delay_ms (ms : Nat)
  deriving DecidableEq

/-- What the transport answers to one call: the return code and, for a
receive, the byte it delivers at each position of the burst. -/
structure Response where
  code : Nat
  rx : Nat → Nat

/-- The transport seen from the program: the answer to its `k`-th call
(counted from 0 over transmits and receives together). -/
abbrev Transport := Nat → Response

/-- The machine while a function runs: the object the function may write
(`mem`), the number of transport calls made so far, and the calls into the
environment so far, oldest first. -/
structure Machine (μ : Type) where
  mem : μ
  calls : Nat
  trace : List Event

/-- How far an execution got: control came back to the caller, or it
is spinning in the `while (1);` of `ERROR_CHECK`. -/
inductive Outcome (σ : Type) where
  | returned (s : σ)
  | halted (s : σ)

/-- The state an outcome carries. -/
def Outcome.state {σ : Type} : Outcome σ → σ
  | .returned s => s
  | .halted s => s

/-- Whether control is spinning in `ERROR_CHECK`. -/
def Outcome.isHalted {σ : Type} : Outcome σ → Bool
  | .returned _ => false
  | .halted _ => true

/-- Sequencing of two pieces of code: the second runs only if the first
returned. -/
def Outcome.andThen {σ : Type} (o : Outcome σ) (f : σ → Outcome σ) : Outcome σ :=
  match o with
  | .returned s => f s
  | .halted s => .halted s

/-- Record one call into the environment. -/
def emit {μ : Type} (e : Event) (m : Machine μ) : Machine μ :=
  { m with trace := m.trace ++ [e] }

/-- The bytes a `uint8_t` buffer of `len` positions holds after the
transport answered a receive with `r`. -/
def received (r : Response) (len : Nat) : List Nat :=
  (List.range len).map (fun i => r.rx i % 256)

/-- Call `tw_master_transmit(addr, data, len, flag)`: the call is recorded and
the transport's next answer gives the return code. -/
def tw_master_transmit {μ : Type} (T : Transport) (addr : Nat) (data : List Nat) (len : Nat)
    (flag : Bool) (m : Machine μ) : Nat × Machine μ :=
  ((T m.calls).code,
   { m with calls := m.calls + 1, trace := m.trace ++ [Event.transmit addr (data.take len) flag] })

/-- Call `tw_master_receive(addr, buffer, len)`: the call is recorded, the
transport's next answer gives the return code and the buffer contents. -/
def tw_master_receive {μ : Type} (T : Transport) (addr : Nat) (len : Nat)
    (m : Machine μ) : Nat × List Nat × Machine μ :=
  ((T m.calls).code, received (T m.calls) len,
   { m with calls := m.calls + 1, trace := m.trace ++ [Event.receive addr len] })

/-! ## The functions of `src/main.c` -/

/-- Function `ERROR_CHECK` (lines 56-64): on a code other than `SUCCESS`, print it
and spin for ever; otherwise return. -/
def ERROR_CHECK {μ : Type} (error_code : Nat) (m : Machine μ) : Outcome (Machine μ) :=
  if error_code ≠ SUCCESS then
    .halted (emit (.app_error error_code) m)
  else
    .returned m

/-- Function `mpu_init` (lines 67-74): announce the wake-up, transmit the
two bytes `PWR_MGMT_1, 0` with the flag `false`, check the code. -/
def mpu_init {μ : Type} (T : Transport) (m : Machine μ) : Outcome (Machine μ) :=
  let m1 := emit (.puts "Write 0 to PWR_MGMT_1 reg to wakeup MPU.") m
  let data : List Nat := [PWR_MGMT_1, 0]
  let r := tw_master_transmit T MPU6050_ADDR data data.length false m1
  ERROR_CHECK r.1 r.2

/-- Element `i` of the six-byte buffer. -/
def byte_at (data : List Nat) (i : Nat) : Nat := data.getD i 0

/-- Function `mpu_get_accel_raw` (lines 77-94). Of the buffer `data[6]` only
`data[0]` is set before the transmit, which hands over one byte; the
receive then overwrites all six positions. -/
def mpu_get_accel_raw (T : Transport) (m : Machine mpu_data_t) : Outcome (Machine mpu_data_t) :=
  let data : List Nat := [ACCEL_XOUT_H]
  let r1 := tw_master_transmit T MPU6050_ADDR data 1 true m
  (ERROR_CHECK r1.1 r1.2).andThen fun m1 =>
    let r2 := tw_master_receive T MPU6050_ADDR 6 m1
    (ERROR_CHECK r2.1 r2.2.2).andThen fun m2 =>
      let data := r2.2.1
      let m3 := { m2 with mem := { m2.mem with x := axis_value INT_WIDTH (byte_at data 0) (byte_at data 1) } }
      let m4 := { m3 with mem := { m3.mem with y := axis_value INT_WIDTH (byte_at data 2) (byte_at data 3) } }
      let m5 := { m4 with mem := { m4.mem with z := axis_value INT_WIDTH (byte_at data 4) (byte_at data 5) } }
      .returned m5

/-- Function `mpu_get_accel` (lines 97-104): the raw read, then each field
assigned to itself. -/
def mpu_get_accel (T : Transport) (m : Machine mpu_data_t) : Outcome (Machine mpu_data_t) :=
  (mpu_get_accel_raw T m).andThen fun m1 =>
    let m2 := { m1 with mem := { m1.mem with x := m1.mem.x } }
    let m3 := { m2 with mem := { m2.mem with y := m2.mem.y } }
    let m4 := { m3 with mem := { m3.mem with z := m3.mem.z } }
    .returned m4

/-- Function `mpu_get_gyro_raw` (lines 106-122); the buffer `data_g[6]` is
used like `data[6]` in `mpu_get_accel_raw`. -/
def mpu_get_gyro_raw (T : Transport) (m : Machine mpu_gy_data_t) : Outcome (Machine mpu_gy_data_t) :=
  let data_g : List Nat := [GYRO_XOUT_H]
  let r1 := tw_master_transmit T MPU6050_ADDR data_g 1 true m
  (ERROR_CHECK r1.1 r1.2).andThen fun m1 =>
    let r2 := tw_master_receive T MPU6050_ADDR 6 m1
    (ERROR_CHECK r2.1 r2.2.2).andThen fun m2 =>
      let data_g := r2.2.1
      let m3 := { m2 with mem := { m2.mem with gx := axis_value INT_WIDTH (byte_at data_g 0) (byte_at data_g 1) } }
      let m4 := { m3 with mem := { m3.mem with gy := axis_value INT_WIDTH (byte_at data_g 2) (byte_at data_g 3) } }
      let m5 := { m4 with mem := { m4.mem with gz := axis_value INT_WIDTH (byte_at data_g 4) (byte_at data_g 5) } }
      .returned m5

/-- Function `mpu_get_gyro` (lines 124-130): the raw read, then each field
assigned to itself. -/
def mpu_get_gyro (T : Transport) (m : Machine mpu_gy_data_t) : Outcome (Machine mpu_gy_data_t) :=
  (mpu_get_gyro_raw T m).andThen fun m1 =>
    let m2 := { m1 with mem := { m1.mem with gx := m1.mem.gx } }
    let m3 := { m2 with mem := { m2.mem with gy := m2.mem.gy } }
    let m4 := { m3 with mem := { m3.mem with gz := m3.mem.gz } }
    .returned m4

/-- The locals `accel` and `gyro` of `main` (lines 146-147). -/
structure main_locals where
  accel : mpu_data_t
  gyro : mpu_gy_data_t
  deriving DecidableEq

/-- Call a function of the driver with `&accel` as its argument. -/
def with_accel (f : Machine mpu_data_t → Outcome (Machine mpu_data_t))
    (m : Machine main_locals) : Outcome (Machine main_locals) :=
  match f { mem := m.mem.accel, calls := m.calls, trace := m.trace } with
  | .returned m1 =>
    .returned { mem := { m.mem with accel := m1.mem }, calls := m1.calls, trace := m1.trace }
  | .halted m1 =>
    .halted { mem := { m.mem with accel := m1.mem }, calls := m1.calls, trace := m1.trace }

/-- Call a function of the driver with `&gyro` as its argument. -/
def with_gyro (f : Machine mpu_gy_data_t → Outcome (Machine mpu_gy_data_t))
    (m : Machine main_locals) : Outcome (Machine main_locals) :=
  match f { mem := m.mem.gyro, calls := m.calls, trace := m.trace } with
  | .returned m1 =>
    .returned { mem := { m.mem with gyro := m1.mem }, calls := m1.calls, trace := m1.trace }
  | .halted m1 =>
    .halted { mem := { m.mem with gyro := m1.mem }, calls := m1.calls, trace := m1.trace }

/-- The part of `main` before the loop (lines 138-150). -/
def main_setup (T : Transport) (m : Machine main_locals) : Outcome (Machine main_locals) :=
  let m1 := emit (.uart_init 250000) m
  let m2 := emit .cli_reset m1
  let m3 := emit (.puts "Initializing TWI_Test Project...\n") m2
  let m4 := emit (.tw_init true) m3
  (mpu_init T m4).andThen fun m5 =>
    .returned (emit (.puts "--------------- Application Started ---------------\n") m5)

/-- One pass through the body of the `while (1)` of `main` (lines 154-164). -/
def loop_body (T : Transport) (m : Machine main_locals) : Outcome (Machine main_locals) :=
  let m1 := emit (.puts "Read accelerometer data.") m
  (with_accel (mpu_get_accel T) m1).andThen fun m2 =>
    let m3 := emit (.printf "Accel X: %d\n" m2.mem.accel.x) m2
    let m4 := emit (.printf "Accel Y: %d\n" m3.mem.accel.y) m3
    let m5 := emit (.printf "Accel Z: %d\n" m4.mem.accel.z) m4
    let m6 := emit (.puts "Read gyro data.") m5
    (with_gyro (mpu_get_gyro T) m6).andThen fun m7 =>
      let m8 := emit (.printf "Gyro X: %d\n" m7.mem.gyro.gx) m7
      let m9 := emit (.printf "Gyro Y: %d\n" m8.mem.gyro.gy) m8
      let m10 := emit (.printf "Gyro Z: %d\n" m9.mem.gyro.gz) m9
      .returned (emit (.delay_ms 100) m10)

/-- The first `n` passes through the `while (1)` of `main` (line 152); the
loop has no exit, so an execution is the limit of these. -/
def main_loop (T : Transport) : Nat → Machine main_locals → Outcome (Machine main_locals)
  | 0, m => .returned m
  | n + 1, m => (loop_body T m).andThen (main_loop T n)

/-- The machine at reset: no transport call made, nothing emitted; the
locals of `main` are not initialised and hold `locals`. -/
def reset_machine (locals : main_locals) : Machine main_locals :=
  { mem := locals, calls := 0, trace := [] }

/-- Function `main` (lines 136-166), followed for `n` passes of its loop. -/
def main (T : Transport) (locals : main_locals) (n : Nat) : Outcome (Machine main_locals) :=
  (main_setup T (reset_machine locals)).andThen (main_loop T n)

/-! ## Observations on traces -/

/-- Whether an event is an operation on the two-wire bus: a transmit or a
receive (`tw_init` only configures the peripheral). -/
def Event.isBusOp : Event → Bool
  | .transmit _ _ _ => true
  | .receive _ _ => true
  | _ => false

/-- The bus operations of a trace, in order. -/
def bus_ops (tr : List Event) : List Event := tr.filter Event.isBusOp

/-- Whether an event is the diagnostic of `ERROR_CHECK`. -/
def Event.isDiagnostic : Event → Bool
  | .app_error _ => true
  | _ => false

/-- Modelled from the spec: the meaning of the last argument of the transport
primitive `tw_master_transmit`, declared in `twi_master.h`, which is not
among the sources. The spec describes the register-pointer write of a read,
which `main.c` issues with the argument `true`, as sent "without releasing
the bus (no stop condition, enabling a repeated-start read)", and the
wake-up write, issued with `false`, as a stand-alone write: the argument
is the repeated-start flag, and a transmit sends its stop condition, and
releases the bus, exactly when the argument is false. -/
def Event.sends_stop : Event → Bool
  | .transmit _ _ flag => !flag
  | _ => false

/-- Whether an event is a transmit to the sensor of the two bytes
`[PWR_MGMT_1, 0]`, whatever its flag. -/
def Event.isWakeWrite : Event → Bool
  | .transmit addr data _ => decide (addr = MPU6050_ADDR ∧ data = [PWR_MGMT_1, 0])
  | _ => false

/-- The wake-up write of `mpu_init`. -/
def wake_write : Event := .transmit MPU6050_ADDR [PWR_MGMT_1, 0] false

/-- The register-pointer write of a read from base register `base`. -/
def pointer_write (base : Nat) : Event := .transmit MPU6050_ADDR [base] true

/-- The six-byte burst receive of a read. -/
def burst_read : Event := .receive MPU6050_ADDR 6

/-- A transport that never faults and delivers the bytes of `bytes` (zero
beyond its end) on every receive. -/
def steady (bytes : List Nat) : Transport :=
  fun _ => { code := 0, rx := fun i => bytes.getD i 0 }

/-- A transport that answers its `k`-th call with the fault code `c` and
every other call like `steady bytes`. -/
def faulty_at (k c : Nat) (bytes : List Nat) : Transport :=
  fun j => { code := if j = k then c else 0, rx := fun i => bytes.getD i 0 }

/-- The two's-complement big-endian reading of the byte pair `hi`, `lo`, in
the words of the spec: `256 * hi + lo` when `hi < 128`, and that number
less 65536 otherwise. -/
def big_endian16 (hi lo : Nat) : Int :=
  if hi < 128 then (256 * hi + lo : Int) else (256 * hi + lo : Int) - 65536

/-- The spec's `read_triaxial(base)`: the one read function of which
`mpu_get_accel_raw` and `mpu_get_gyro_raw` are the instances at base
register 0x3B and 0x43. It sends the one-byte register pointer (with the
flag value both functions pass), receives six bytes and decodes the three
axes; a faulting transport call halts it. -/
def read_triaxial (base : Nat) (T : Transport) (m : Machine mpu_data_t) :
    Outcome (Machine mpu_data_t) :=
  let r1 := tw_master_transmit T MPU6050_ADDR [base] 1 true m
  (ERROR_CHECK r1.1 r1.2).andThen fun m1 =>
    let r2 := tw_master_receive T MPU6050_ADDR 6 m1
    (ERROR_CHECK r2.1 r2.2.2).andThen fun m2 =>
      let b := r2.2.1
      .returned { m2 with mem :=
        { x := axis_value INT_WIDTH (byte_at b 0) (byte_at b 1)
          y := axis_value INT_WIDTH (byte_at b 2) (byte_at b 3)
          z := axis_value INT_WIDTH (byte_at b 4) (byte_at b 5) } }

/-- The identification of the two sample types: x, y, z with gx, gy, gz. -/
def as_gyro (d : mpu_data_t) : mpu_gy_data_t := { gx := d.x, gy := d.y, gz := d.z }

/-- The same machine with its object seen through `f`. -/
def Machine.view {μ ν : Type} (f : μ → ν) (m : Machine μ) : Machine ν :=
  { mem := f m.mem, calls := m.calls, trace := m.trace }

/-- The same outcome with its state seen through `f`. -/
def Outcome.view {σ τ : Type} (f : σ → τ) : Outcome σ → Outcome τ
  | .returned s => .returned (f s)
  | .halted s => .halted (f s)

/-- The read cycle as the spec lists it: an acceleration read, the three
`Accel` lines, an angular-rate read, the three `Gyro` lines, a 100 ms delay. -/
def cycle_as_listed (a : mpu_data_t) (g : mpu_gy_data_t) : List Event :=
  [pointer_write ACCEL_XOUT_H, burst_read,
   .printf "Accel X: %d\n" a.x, .printf "Accel Y: %d\n" a.y, .printf "Accel Z: %d\n" a.z,
   pointer_write GYRO_XOUT_H, burst_read,
   .printf "Gyro X: %d\n" g.gx, .printf "Gyro Y: %d\n" g.gy, .printf "Gyro Z: %d\n" g.gz,
   .delay_ms 100]

/-- Whether every transport call succeeds. -/
def fault_free (T : Transport) : Prop := ∀ k, (T k).code = 0

/-- The sample a read decodes from the answer `r` of the burst receive. -/
def decoded_accel (r : Response) : mpu_data_t :=
  { x := axis_value INT_WIDTH (r.rx 0 % 256) (r.rx 1 % 256)
    y := axis_value INT_WIDTH (r.rx 2 % 256) (r.rx 3 % 256)
    z := axis_value INT_WIDTH (r.rx 4 % 256) (r.rx 5 % 256) }

/-- The sample a read decodes from the answer `r` of the burst receive. -/
def decoded_gyro (r : Response) : mpu_gy_data_t :=
  { gx := axis_value INT_WIDTH (r.rx 0 % 256) (r.rx 1 % 256)
    gy := axis_value INT_WIDTH (r.rx 2 % 256) (r.rx 3 % 256)
    gz := axis_value INT_WIDTH (r.rx 4 % 256) (r.rx 5 % 256) }

/-- The calls into the environment made by one pass of the loop of `main`
in which no transport call faults, `a` and `g` being the samples read. -/
def cycle_events (a : mpu_data_t) (g : mpu_gy_data_t) : List Event :=
  [.puts "Read accelerometer data.", pointer_write ACCEL_XOUT_H, burst_read,
   .printf "Accel X: %d\n" a.x, .printf "Accel Y: %d\n" a.y, .printf "Accel Z: %d\n" a.z,
   .puts "Read gyro data.", pointer_write GYRO_XOUT_H, burst_read,
   .printf "Gyro X: %d\n" g.gx, .printf "Gyro Y: %d\n" g.gy, .printf "Gyro Z: %d\n" g.gz,
   .delay_ms 100]

/-- The calls into the environment made by `n` fault-free passes of the loop
that start when `k` transport calls have been made: pass `i` reads its
samples from the answers `k + 4 i + 1` and `k + 4 i + 3`. -/
def cycles (T : Transport) : Nat → Nat → List Event
  | _, 0 => []
  | k, n + 1 =>
    cycle_events (decoded_accel (T (k + 1))) (decoded_gyro (T (k + 3))) ++ cycles T (k + 4) n

/-- The bus operations a read function may issue. -/
def is_read_op (e : Event) : Prop :=
  e = pointer_write ACCEL_XOUT_H ∨ e = pointer_write GYRO_XOUT_H ∨ e = burst_read

/-- Shape of the bus traffic of an execution: the wake-up write first,
then only operations of the read functions. -/
def wake_first (tr : List Event) : Prop :=
  ∃ rest, bus_ops tr = wake_write :: rest ∧ ∀ e ∈ rest, is_read_op e

/-- State of an execution in which no transport call has faulted: every
call made so far returned zero, no diagnostic was printed, and the trace
holds one bus operation per transport call. -/
def clean {μ : Type} (T : Transport) (s : Machine μ) : Prop :=
  (∀ k, k < s.calls → (T k).code = 0) ∧ (∀ e ∈ s.trace, e.isDiagnostic = false) ∧
    (bus_ops s.trace).length = s.calls

/-- State of an execution spinning in `ERROR_CHECK`: the last transport
call made returned a nonzero code, every earlier one returned zero, and
the trace ends with that bus operation followed by the one diagnostic,
which carries the code; the trace holds one bus operation per transport
call. -/
def stopped {μ : Type} (T : Transport) (s : Machine μ) : Prop :=
  ∃ pre op, s.trace = pre ++ [op, Event.app_error (T (s.calls - 1)).code] ∧
    op.isBusOp = true ∧ (∀ e ∈ pre, e.isDiagnostic = false) ∧
    0 < s.calls ∧ (T (s.calls - 1)).code ≠ 0 ∧ (∀ k, k < s.calls - 1 → (T k).code = 0) ∧
    (bus_ops s.trace).length = s.calls

/-- The fault discipline of an execution. -/
def fault_discipline {μ : Type} (T : Transport) : Outcome (Machine μ) → Prop
  | .returned s => clean T s
  | .halted s => stopped T s

/-! ## Arithmetic of the decode -/

theorem shl8_or (hi lo : Nat) (hlo : lo < 256) : (hi <<< 8) ||| lo = 256 * hi + lo := by
  have h := Nat.mul_add_lt_is_or (i := 8) (b := lo) (by simpa using hlo) hi
  rw [Nat.shiftLeft_eq]
  have e : hi * 2 ^ 8 = 2 ^ 8 * hi := Nat.mul_comm _ _
  rw [e, ← h]

theorem int_shl_or_16 (hi lo : Nat) (hhi : hi < 256) (hlo : lo < 256) :
    int_or (int_shl 16 hi 8) lo = 256 * hi + lo := by
  unfold int_or int_shl
  have e : (hi <<< 8) % 2 ^ 16 = hi <<< 8 := by
    rw [Nat.shiftLeft_eq]
    apply Nat.mod_eq_of_lt
    norm_num
    omega
  rw [e, shl8_or hi lo hlo]

theorem int_shl_or_32 (hi lo : Nat) (hhi : hi < 256) (hlo : lo < 256) :
    int_or (int_shl 32 hi 8) lo = 256 * hi + lo := by
  unfold int_or int_shl
  have e : (hi <<< 8) % 2 ^ 32 = hi <<< 8 := by
    rw [Nat.shiftLeft_eq]
    apply Nat.mod_eq_of_lt
    norm_num
    omega
  rw [e, shl8_or hi lo hlo]

theorem to_int16_pair (hi lo : Nat) (hhi : hi < 256) (hlo : lo < 256) :
    to_int16 (256 * hi + lo) =
      if hi < 128 then (256 * hi + lo : Int) else (256 * hi + lo : Int) - 65536 := by
  unfold to_int16
  have e : (256 * hi + lo) % 65536 = 256 * hi + lo := Nat.mod_eq_of_lt (by omega)
  rw [e]
  by_cases h : hi < 128
  · have h2 : 256 * hi + lo < 32768 := by omega
    simp [h, h2]
  · have h2 : ¬ (256 * hi + lo < 32768) := by omega
    simp [h, h2]

theorem axis_value_16 (hi lo : Nat) (hhi : hi < 256) (hlo : lo < 256) :
    axis_value 16 hi lo =
      if hi < 128 then (256 * hi + lo : Int) else (256 * hi + lo : Int) - 65536 := by
  unfold axis_value
  rw [int_shl_or_16 hi lo hhi hlo, to_int16_pair hi lo hhi hlo]

theorem axis_value_32 (hi lo : Nat) (hhi : hi < 256) (hlo : lo < 256) :
    axis_value 32 hi lo =
      if hi < 128 then (256 * hi + lo : Int) else (256 * hi + lo : Int) - 65536 := by
  unfold axis_value
  rw [int_shl_or_32 hi lo hhi hlo, to_int16_pair hi lo hhi hlo]

theorem axis_value_range (hi lo : Nat) (hhi : hi < 256) (hlo : lo < 256) :
    -32768 ≤ axis_value 16 hi lo ∧ axis_value 16 hi lo ≤ 32767 := by
  rw [axis_value_16 hi lo hhi hlo]
  split <;> constructor <;> omega

theorem to_uint16_axis (hi lo : Nat) (hhi : hi < 256) (hlo : lo < 256) :
    to_uint16 (axis_value 16 hi lo) = 256 * hi + lo := by
  rw [axis_value_16 hi lo hhi hlo]
  unfold to_uint16
  split <;> omega

/-! ## The driver functions, case by case -/

theorem received_six (r : Response) :
    received r 6 = [r.rx 0 % 256, r.rx 1 % 256, r.rx 2 % 256, r.rx 3 % 256, r.rx 4 % 256,
      r.rx 5 % 256] := by
  simp [received, List.range_succ]

theorem error_check_fault {μ : Type} (c : Nat) (m : Machine μ) (h : c ≠ 0) :
    ERROR_CHECK c m = .halted { m with trace := m.trace ++ [Event.app_error c] } := by
  simp [ERROR_CHECK, SUCCESS, h, emit]

theorem error_check_ok {μ : Type} (m : Machine μ) : ERROR_CHECK 0 m = .returned m := by
  simp [ERROR_CHECK, SUCCESS]

theorem mpu_init_ok {μ : Type} (T : Transport) (a : μ) (k : Nat) (tr : List Event)
    (h : (T k).code = 0) :
    mpu_init T { mem := a, calls := k, trace := tr } = .returned
      { mem := a, calls := k + 1
        trace := tr ++ [.puts "Write 0 to PWR_MGMT_1 reg to wakeup MPU.", wake_write] } := by
  simp [mpu_init, tw_master_transmit, emit, h, error_check_ok, wake_write]

theorem mpu_init_fault {μ : Type} (T : Transport) (a : μ) (k : Nat) (tr : List Event)
    (h : (T k).code ≠ 0) :
    mpu_init T { mem := a, calls := k, trace := tr } = .halted
      { mem := a, calls := k + 1
        trace := tr ++ [.puts "Write 0 to PWR_MGMT_1 reg to wakeup MPU.", wake_write,
          .app_error (T k).code] } := by
  simp [mpu_init, tw_master_transmit, emit, error_check_fault _ _ h, wake_write]

theorem accel_raw_ok (T : Transport) (a : mpu_data_t) (k : Nat) (tr : List Event)
    (h1 : (T k).code = 0) (h2 : (T (k + 1)).code = 0) :
    mpu_get_accel_raw T { mem := a, calls := k, trace := tr } = .returned
      { mem := decoded_accel (T (k + 1)), calls := k + 2
        trace := tr ++ [pointer_write ACCEL_XOUT_H, burst_read] } := by
  simp [mpu_get_accel_raw, tw_master_transmit, tw_master_receive, h1, h2, error_check_ok,
    Outcome.andThen, received_six, byte_at, decoded_accel, pointer_write, burst_read]

theorem accel_raw_fault1 (T : Transport) (a : mpu_data_t) (k : Nat) (tr : List Event)
    (h1 : (T k).code ≠ 0) :
    mpu_get_accel_raw T { mem := a, calls := k, trace := tr } = .halted
      { mem := a, calls := k + 1
        trace := tr ++ [pointer_write ACCEL_XOUT_H, .app_error (T k).code] } := by
  simp [mpu_get_accel_raw, tw_master_transmit, error_check_fault _ _ h1,
    Outcome.andThen, pointer_write]

theorem accel_raw_fault2 (T : Transport) (a : mpu_data_t) (k : Nat) (tr : List Event)
    (h1 : (T k).code = 0) (h2 : (T (k + 1)).code ≠ 0) :
    mpu_get_accel_raw T { mem := a, calls := k, trace := tr } = .halted
      { mem := a, calls := k + 2
        trace := tr ++ [pointer_write ACCEL_XOUT_H, burst_read, .app_error (T (k + 1)).code] } := by
  simp [mpu_get_accel_raw, tw_master_transmit, tw_master_receive, h1, error_check_ok,
    error_check_fault _ _ h2, Outcome.andThen, pointer_write, burst_read]

theorem gyro_raw_ok (T : Transport) (a : mpu_gy_data_t) (k : Nat) (tr : List Event)
    (h1 : (T k).code = 0) (h2 : (T (k + 1)).code = 0) :
    mpu_get_gyro_raw T { mem := a, calls := k, trace := tr } = .returned
      { mem := decoded_gyro (T (k + 1)), calls := k + 2
        trace := tr ++ [pointer_write GYRO_XOUT_H, burst_read] } := by
  simp [mpu_get_gyro_raw, tw_master_transmit, tw_master_receive, h1, h2, error_check_ok,
    Outcome.andThen, received_six, byte_at, decoded_gyro, pointer_write, burst_read]

theorem gyro_raw_fault1 (T : Transport) (a : mpu_gy_data_t) (k : Nat) (tr : List Event)
    (h1 : (T k).code ≠ 0) :
    mpu_get_gyro_raw T { mem := a, calls := k, trace := tr } = .halted
      { mem := a, calls := k + 1
        trace := tr ++ [pointer_write GYRO_XOUT_H, .app_error (T k).code] } := by
  simp [mpu_get_gyro_raw, tw_master_transmit, error_check_fault _ _ h1,
    Outcome.andThen, pointer_write]

theorem gyro_raw_fault2 (T : Transport) (a : mpu_gy_data_t) (k : Nat) (tr : List Event)
    (h1 : (T k).code = 0) (h2 : (T (k + 1)).code ≠ 0) :
    mpu_get_gyro_raw T { mem := a, calls := k, trace := tr } = .halted
      { mem := a, calls := k + 2
        trace := tr ++ [pointer_write GYRO_XOUT_H, burst_read, .app_error (T (k + 1)).code] } := by
  simp [mpu_get_gyro_raw, tw_master_transmit, tw_master_receive, h1, error_check_ok,
    error_check_fault _ _ h2, Outcome.andThen, pointer_write, burst_read]

theorem accel_eq_raw (T : Transport) (m : Machine mpu_data_t) :
    mpu_get_accel T m = mpu_get_accel_raw T m := by
  unfold mpu_get_accel
  cases mpu_get_accel_raw T m <;> rfl

theorem gyro_eq_raw (T : Transport) (m : Machine mpu_gy_data_t) :
    mpu_get_gyro T m = mpu_get_gyro_raw T m := by
  unfold mpu_get_gyro
  cases mpu_get_gyro_raw T m <;> rfl

/-! ## One pass of the loop, case by case -/

theorem loop_body_ok (T : Transport) (l : main_locals) (k : Nat) (tr : List Event)
    (h0 : (T k).code = 0) (h1 : (T (k + 1)).code = 0)
    (h2 : (T (k + 2)).code = 0) (h3 : (T (k + 3)).code = 0) :
    loop_body T { mem := l, calls := k, trace := tr } = .returned
      { mem := { accel := decoded_accel (T (k + 1)), gyro := decoded_gyro (T (k + 3)) }
        calls := k + 4
        trace := tr ++ cycle_events (decoded_accel (T (k + 1))) (decoded_gyro (T (k + 3))) } := by
  simp [loop_body, with_accel, with_gyro, accel_eq_raw, gyro_eq_raw, emit,
    accel_raw_ok T _ _ _ h0 h1, Outcome.andThen, gyro_raw_ok T _ _ _ h2 h3, cycle_events]

theorem loop_body_fault0 (T : Transport) (l : main_locals) (k : Nat) (tr : List Event)
    (h0 : (T k).code ≠ 0) :
    loop_body T { mem := l, calls := k, trace := tr } = .halted
      { mem := l, calls := k + 1
        trace := tr ++ [.puts "Read accelerometer data.", pointer_write ACCEL_XOUT_H,
          .app_error (T k).code] } := by
  simp [loop_body, with_accel, accel_eq_raw, emit, accel_raw_fault1 T _ _ _ h0, Outcome.andThen]

theorem loop_body_fault1 (T : Transport) (l : main_locals) (k : Nat) (tr : List Event)
    (h0 : (T k).code = 0) (h1 : (T (k + 1)).code ≠ 0) :
    loop_body T { mem := l, calls := k, trace := tr } = .halted
      { mem := l, calls := k + 2
        trace := tr ++ [.puts "Read accelerometer data.", pointer_write ACCEL_XOUT_H,
          burst_read, .app_error (T (k + 1)).code] } := by
  simp [loop_body, with_accel, accel_eq_raw, emit, accel_raw_fault2 T _ _ _ h0 h1,
    Outcome.andThen]

theorem loop_body_fault2 (T : Transport) (l : main_locals) (k : Nat) (tr : List Event)
    (h0 : (T k).code = 0) (h1 : (T (k + 1)).code = 0) (h2 : (T (k + 2)).code ≠ 0) :
    loop_body T { mem := l, calls := k, trace := tr } = .halted
      { mem := { l with accel := decoded_accel (T (k + 1)) }, calls := k + 3
        trace := tr ++ [.puts "Read accelerometer data.", pointer_write ACCEL_XOUT_H,
          burst_read, .printf "Accel X: %d\n" (decoded_accel (T (k + 1))).x,
          .printf "Accel Y: %d\n" (decoded_accel (T (k + 1))).y,
          .printf "Accel Z: %d\n" (decoded_accel (T (k + 1))).z,
          .puts "Read gyro data.", pointer_write GYRO_XOUT_H, .app_error (T (k + 2)).code] } := by
  simp [loop_body, with_accel, with_gyro, accel_eq_raw, gyro_eq_raw, emit,
    accel_raw_ok T _ _ _ h0 h1, Outcome.andThen, gyro_raw_fault1 T _ _ _ h2]

theorem loop_body_fault3 (T : Transport) (l : main_locals) (k : Nat) (tr : List Event)
    (h0 : (T k).code = 0) (h1 : (T (k + 1)).code = 0) (h2 : (T (k + 2)).code = 0)
    (h3 : (T (k + 3)).code ≠ 0) :
    loop_body T { mem := l, calls := k, trace := tr } = .halted
      { mem := { l with accel := decoded_accel (T (k + 1)) }, calls := k + 4
        trace := tr ++ [.puts "Read accelerometer data.", pointer_write ACCEL_XOUT_H,
          burst_read, .printf "Accel X: %d\n" (decoded_accel (T (k + 1))).x,
          .printf "Accel Y: %d\n" (decoded_accel (T (k + 1))).y,
          .printf "Accel Z: %d\n" (decoded_accel (T (k + 1))).z,
          .puts "Read gyro data.", pointer_write GYRO_XOUT_H, burst_read,
          .app_error (T (k + 3)).code] } := by
  simp [loop_body, with_accel, with_gyro, accel_eq_raw, gyro_eq_raw, emit,
    accel_raw_ok T _ _ _ h0 h1, Outcome.andThen, gyro_raw_fault2 T _ _ _ h2 h3]

/-! ## Whole executions -/

theorem andThen_halted {σ : Type} (s : σ) (f : σ → Outcome σ) :
    (Outcome.halted s).andThen f = .halted s := rfl

theorem andThen_returned {σ : Type} (s : σ) (f : σ → Outcome σ) :
    (Outcome.returned s).andThen f = f s := rfl

theorem andThen_assoc {σ : Type} (o : Outcome σ) (f g : σ → Outcome σ) :
    (o.andThen f).andThen g = o.andThen (fun s => (f s).andThen g) := by
  cases o <;> rfl

theorem main_loop_add (T : Transport) (n k : Nat) (m : Machine main_locals) :
    main_loop T (n + k) m = (main_loop T n m).andThen (main_loop T k) := by
  induction n generalizing m with
  | zero => simp [main_loop, andThen_returned]
  | succ n ih =>
    have e : n + 1 + k = (n + k) + 1 := by omega
    rw [e]
    simp only [main_loop]
    rw [andThen_assoc]
    congr 1
    funext s
    exact ih s

theorem main_add (T : Transport) (locals : main_locals) (n k : Nat) :
    main T locals (n + k) = (main T locals n).andThen (main_loop T k) := by
  unfold main
  rw [andThen_assoc]
  congr 1
  funext s
  exact main_loop_add T n k s

/-- Once `main` is spinning in `ERROR_CHECK`, it stays in the same state. -/
theorem main_halted_stable (T : Transport) (locals : main_locals) (n n' : Nat)
    (s : Machine main_locals) (h : main T locals n = .halted s) (hn : n ≤ n') :
    main T locals n' = .halted s := by
  obtain ⟨k, rfl⟩ := Nat.exists_eq_add_of_le hn
  rw [main_add, h, andThen_halted]

theorem loop_body_bus (T : Transport) (m : Machine main_locals) :
    ∃ ops, bus_ops (loop_body T m).state.trace = bus_ops m.trace ++ ops ∧
      ∀ e ∈ ops, is_read_op e := by
  obtain ⟨l, k, tr⟩ := m
  by_cases h0 : (T k).code = 0
  · by_cases h1 : (T (k + 1)).code = 0
    · by_cases h2 : (T (k + 2)).code = 0
      · by_cases h3 : (T (k + 3)).code = 0
        · rw [loop_body_ok T l k tr h0 h1 h2 h3]
          refine ⟨[pointer_write ACCEL_XOUT_H, burst_read, pointer_write GYRO_XOUT_H,
            burst_read], ?_, ?_⟩
          · simp [Outcome.state, bus_ops, cycle_events, List.filter_cons, Event.isBusOp,
              pointer_write, burst_read]
          · simp [is_read_op]
        · rw [loop_body_fault3 T l k tr h0 h1 h2 h3]
          refine ⟨[pointer_write ACCEL_XOUT_H, burst_read, pointer_write GYRO_XOUT_H,
            burst_read], ?_, ?_⟩
          · simp [Outcome.state, bus_ops, List.filter_cons, Event.isBusOp,
              pointer_write, burst_read]
          · simp [is_read_op]
      · rw [loop_body_fault2 T l k tr h0 h1 h2]
        refine ⟨[pointer_write ACCEL_XOUT_H, burst_read, pointer_write GYRO_XOUT_H], ?_, ?_⟩
        · simp [Outcome.state, bus_ops, List.filter_cons, Event.isBusOp,
            pointer_write, burst_read]
        · simp [is_read_op]
    · rw [loop_body_fault1 T l k tr h0 h1]
      refine ⟨[pointer_write ACCEL_XOUT_H, burst_read], ?_, ?_⟩
      · simp [Outcome.state, bus_ops, List.filter_cons, Event.isBusOp,
          pointer_write, burst_read]
      · simp [is_read_op]
  · rw [loop_body_fault0 T l k tr h0]
    refine ⟨[pointer_write ACCEL_XOUT_H], ?_, ?_⟩
    · simp [Outcome.state, bus_ops, List.filter_cons, Event.isBusOp, pointer_write]
    · simp [is_read_op]

theorem main_loop_bus (T : Transport) (n : Nat) (m : Machine main_locals) :
    ∃ ops, bus_ops (main_loop T n m).state.trace = bus_ops m.trace ++ ops ∧
      ∀ e ∈ ops, is_read_op e := by
  induction n generalizing m with
  | zero => exact ⟨[], by simp [main_loop, Outcome.state], by simp⟩
  | succ n ih =>
    obtain ⟨ops, h1, h2⟩ := loop_body_bus T m
    simp only [main_loop]
    cases hb : loop_body T m with
    | halted s =>
      rw [hb] at h1
      exact ⟨ops, by simpa [andThen_halted, Outcome.state] using h1, h2⟩
    | returned s =>
      rw [hb] at h1
      obtain ⟨ops', h3, h4⟩ := ih s
      refine ⟨ops ++ ops', ?_, ?_⟩
      · rw [andThen_returned, h3]
        simp only [Outcome.state] at h1
        rw [h1, List.append_assoc]
      · intro e he
        rcases List.mem_append.mp he with h | h
        · exact h2 e h
        · exact h4 e h

theorem main_setup_bus (T : Transport) (locals : main_locals) :
    bus_ops (main_setup T (reset_machine locals)).state.trace = [wake_write] := by
  by_cases h : (T 0).code = 0
  · simp [main_setup, reset_machine, emit, mpu_init_ok T _ _ _ h, andThen_returned,
      Outcome.state, bus_ops, List.filter_cons, Event.isBusOp, wake_write]
  · simp [main_setup, reset_machine, emit, mpu_init_fault T _ _ _ h, andThen_halted,
      Outcome.state, bus_ops, List.filter_cons, Event.isBusOp, wake_write]

theorem main_wake_first (T : Transport) (locals : main_locals) (n : Nat) :
    wake_first (main T locals n).state.trace := by
  unfold main
  have hs := main_setup_bus T locals
  cases hb : main_setup T (reset_machine locals) with
  | halted s =>
    rw [hb] at hs
    exact ⟨[], by simpa [andThen_halted, Outcome.state] using hs, by simp⟩
  | returned s =>
    rw [hb] at hs
    obtain ⟨ops, h1, h2⟩ := main_loop_bus T n s
    simp only [Outcome.state] at hs
    exact ⟨ops, by rw [andThen_returned, h1, hs]; rfl, h2⟩

theorem bus_ops_append (a b : List Event) : bus_ops (a ++ b) = bus_ops a ++ bus_ops b := by
  simp [bus_ops]

theorem codes_upto (T : Transport) (k j : Nat) (h : ∀ i, i < k → (T i).code = 0)
    (hj : ∀ i, k ≤ i → i < j → (T i).code = 0) : ∀ i, i < j → (T i).code = 0 := by
  intro i hi
  by_cases hk : i < k
  · exact h i hk
  · exact hj i (by omega) hi

theorem loop_body_discipline (T : Transport) (m : Machine main_locals) (hm : clean T m) :
    fault_discipline T (loop_body T m) := by
  obtain ⟨l, k, tr⟩ := m
  obtain ⟨hc, hd, hb⟩ := hm
  simp only at hc hd hb
  by_cases h0 : (T k).code = 0
  · by_cases h1 : (T (k + 1)).code = 0
    · by_cases h2 : (T (k + 2)).code = 0
      · by_cases h3 : (T (k + 3)).code = 0
        · rw [loop_body_ok T l k tr h0 h1 h2 h3]
          refine ⟨?_, ?_, by rw [bus_ops_append, List.length_append, hb]; rfl⟩
          · apply codes_upto T k _ hc
            intro i hi1 hi2
            simp only at hi2
            have : i = k ∨ i = k + 1 ∨ i = k + 2 ∨ i = k + 3 := by omega
            rcases this with h | h | h | h <;> subst h <;> assumption
          · intro e he
            simp only [List.mem_append] at he
            rcases he with he | he
            · exact hd e he
            · simp [cycle_events, pointer_write, burst_read] at he
              rcases he with h | h | h | h | h | h | h | h | h | h | h | h | h <;> subst h <;> rfl
        · rw [loop_body_fault3 T l k tr h0 h1 h2 h3]
          refine ⟨tr ++ [.puts "Read accelerometer data.", pointer_write ACCEL_XOUT_H,
            burst_read, .printf "Accel X: %d\n" (decoded_accel (T (k + 1))).x,
            .printf "Accel Y: %d\n" (decoded_accel (T (k + 1))).y,
            .printf "Accel Z: %d\n" (decoded_accel (T (k + 1))).z,
            .puts "Read gyro data.", pointer_write GYRO_XOUT_H], burst_read, ?_, rfl, ?_, ?_, ?_, ?_, ?_⟩
          · simp
          · intro e he
            simp only [List.mem_append] at he
            rcases he with he | he
            · exact hd e he
            · simp [pointer_write, burst_read] at he
              rcases he with h | h | h | h | h | h | h | h <;> subst h <;> rfl
          · simp
          · simpa using h3
          · apply codes_upto T k _ hc
            intro i hi1 hi2
            simp only [Nat.add_sub_cancel] at hi2
            have : i = k ∨ i = k + 1 ∨ i = k + 2 := by omega
            rcases this with h | h | h <;> subst h <;> assumption
          · rw [bus_ops_append, List.length_append, hb]
            rfl
      · rw [loop_body_fault2 T l k tr h0 h1 h2]
        refine ⟨tr ++ [.puts "Read accelerometer data.", pointer_write ACCEL_XOUT_H,
          burst_read, .printf "Accel X: %d\n" (decoded_accel (T (k + 1))).x,
          .printf "Accel Y: %d\n" (decoded_accel (T (k + 1))).y,
          .printf "Accel Z: %d\n" (decoded_accel (T (k + 1))).z,
          .puts "Read gyro data."], pointer_write GYRO_XOUT_H, ?_, rfl, ?_, ?_, ?_, ?_, ?_⟩
        · simp
        · intro e he
          simp only [List.mem_append] at he
          rcases he with he | he
          · exact hd e he
          · simp [pointer_write, burst_read] at he
            rcases he with h | h | h | h | h | h | h <;> subst h <;> rfl
        · simp
        · simpa using h2
        · apply codes_upto T k _ hc
          intro i hi1 hi2
          simp only [Nat.add_sub_cancel] at hi2
          have : i = k ∨ i = k + 1 := by omega
          rcases this with h | h <;> subst h <;> assumption
        · rw [bus_ops_append, List.length_append, hb]
          rfl
    · rw [loop_body_fault1 T l k tr h0 h1]
      refine ⟨tr ++ [.puts "Read accelerometer data.", pointer_write ACCEL_XOUT_H],
        burst_read, ?_, rfl, ?_, ?_, ?_, ?_, ?_⟩
      · simp
      · intro e he
        simp only [List.mem_append] at he
        rcases he with he | he
        · exact hd e he
        · simp [pointer_write] at he
          rcases he with h | h <;> subst h <;> rfl
      · simp
      · simpa using h1
      · apply codes_upto T k _ hc
        intro i hi1 hi2
        simp only [Nat.add_sub_cancel] at hi2
        have : i = k := by omega
        subst this
        assumption
      · rw [bus_ops_append, List.length_append, hb]
        rfl
  · rw [loop_body_fault0 T l k tr h0]
    refine ⟨tr ++ [.puts "Read accelerometer data."], pointer_write ACCEL_XOUT_H,
      ?_, rfl, ?_, ?_, ?_, ?_, ?_⟩
    · simp
    · intro e he
      simp only [List.mem_append] at he
      rcases he with he | he
      · exact hd e he
      · simp at he
        subst he
        rfl
    · simp
    · simpa using h0
    · simpa using hc
    · rw [bus_ops_append, List.length_append, hb]
      rfl

theorem main_loop_discipline (T : Transport) (n : Nat) (m : Machine main_locals)
    (hm : clean T m) : fault_discipline T (main_loop T n m) := by
  induction n generalizing m with
  | zero => exact hm
  | succ n ih =>
    have hb := loop_body_discipline T m hm
    simp only [main_loop]
    cases h : loop_body T m with
    | halted s =>
      rw [h] at hb
      exact hb
    | returned s =>
      rw [h] at hb
      exact ih s hb

theorem main_setup_discipline (T : Transport) (locals : main_locals) :
    fault_discipline T (main_setup T (reset_machine locals)) := by
  by_cases h : (T 0).code = 0
  · simp only [main_setup, reset_machine, emit, mpu_init_ok T _ _ _ h, andThen_returned]
    refine ⟨?_, ?_, rfl⟩
    · intro k hk
      have : k = 0 := by simp only at hk; omega
      subst this
      exact h
    · intro e he
      simp [wake_write] at he
      rcases he with h | h | h | h | h | h | h <;> subst h <;> rfl
  · simp only [main_setup, reset_machine, emit, mpu_init_fault T _ _ _ h, andThen_halted]
    refine ⟨[.uart_init 250000, .cli_reset, .puts "Initializing TWI_Test Project...\n",
      .tw_init true, .puts "Write 0 to PWR_MGMT_1 reg to wakeup MPU."], wake_write,
      ?_, rfl, ?_, ?_, ?_, ?_, ?_⟩
    · simp
    · intro e he
      simp at he
      rcases he with h | h | h | h | h <;> subst h <;> rfl
    · simp
    · simpa using h
    · intro k hk
      simp at hk
    · rfl

theorem main_discipline (T : Transport) (locals : main_locals) (n : Nat) :
    fault_discipline T (main T locals n) := by
  unfold main
  have hs := main_setup_discipline T locals
  cases h : main_setup T (reset_machine locals) with
  | halted s =>
    rw [h] at hs
    exact hs
  | returned s =>
    rw [h] at hs
    exact main_loop_discipline T n s hs

/-! ## Decoding of a burst -/

theorem to_int16_shl_or (hi lo : Nat) (hhi : hi < 256) (hlo : lo < 256) :
    to_int16 ((hi <<< 8) ||| lo) = big_endian16 hi lo := by
  rw [shl8_or hi lo hlo, to_int16_pair hi lo hhi hlo]
  rfl

theorem axis_value_big_endian (hi lo : Nat) (hhi : hi < 256) (hlo : lo < 256) :
    axis_value INT_WIDTH hi lo = big_endian16 hi lo := by
  unfold INT_WIDTH
  rw [axis_value_16 hi lo hhi hlo]
  rfl

theorem decoded_of_received (r : Response) (b0 b1 b2 b3 b4 b5 : Nat)
    (hb : received r 6 = [b0, b1, b2, b3, b4, b5]) :
    (b0 < 256 ∧ b1 < 256 ∧ b2 < 256 ∧ b3 < 256 ∧ b4 < 256 ∧ b5 < 256) ∧
    decoded_accel r =
      { x := big_endian16 b0 b1, y := big_endian16 b2 b3, z := big_endian16 b4 b5 } ∧
    decoded_gyro r =
      { gx := big_endian16 b0 b1, gy := big_endian16 b2 b3, gz := big_endian16 b4 b5 } := by
  rw [received_six] at hb
  simp only [List.cons.injEq, and_true] at hb
  obtain ⟨e0, e1, e2, e3, e4, e5⟩ := hb
  subst e0 e1 e2 e3 e4 e5
  have l : ∀ n : Nat, n % 256 < 256 := fun n => Nat.mod_lt _ (by norm_num)
  refine ⟨⟨l _, l _, l _, l _, l _, l _⟩, ?_, ?_⟩
  · simp only [decoded_accel]
    rw [axis_value_big_endian _ _ (l _) (l _), axis_value_big_endian _ _ (l _) (l _),
      axis_value_big_endian _ _ (l _) (l _)]
  · simp only [decoded_gyro]
    rw [axis_value_big_endian _ _ (l _) (l _), axis_value_big_endian _ _ (l _) (l _),
      axis_value_big_endian _ _ (l _) (l _)]

/-! ## Auxiliary facts for the claims -/

theorem countP_wake_bus_ops (l : List Event) :
    l.countP Event.isWakeWrite = (bus_ops l).countP Event.isWakeWrite := by
  induction l with
  | nil => rfl
  | cons a l ih =>
    unfold bus_ops at ih ⊢
    cases a <;> simp [List.filter_cons, List.countP_cons, Event.isBusOp, Event.isWakeWrite, ih]

theorem read_triaxial_ok (base : Nat) (T : Transport) (a : mpu_data_t) (k : Nat)
    (tr : List Event) (h1 : (T k).code = 0) (h2 : (T (k + 1)).code = 0) :
    read_triaxial base T { mem := a, calls := k, trace := tr } = .returned
      { mem := decoded_accel (T (k + 1)), calls := k + 2
        trace := tr ++ [pointer_write base, burst_read] } := by
  simp [read_triaxial, tw_master_transmit, tw_master_receive, h1, h2, error_check_ok,
    Outcome.andThen, received_six, byte_at, decoded_accel, pointer_write, burst_read]

theorem read_triaxial_fault1 (base : Nat) (T : Transport) (a : mpu_data_t) (k : Nat)
    (tr : List Event) (h1 : (T k).code ≠ 0) :
    read_triaxial base T { mem := a, calls := k, trace := tr } = .halted
      { mem := a, calls := k + 1
        trace := tr ++ [pointer_write base, .app_error (T k).code] } := by
  simp [read_triaxial, tw_master_transmit, error_check_fault _ _ h1,
    Outcome.andThen, pointer_write]

theorem read_triaxial_fault2 (base : Nat) (T : Transport) (a : mpu_data_t) (k : Nat)
    (tr : List Event) (h1 : (T k).code = 0) (h2 : (T (k + 1)).code ≠ 0) :
    read_triaxial base T { mem := a, calls := k, trace := tr } = .halted
      { mem := a, calls := k + 2
        trace := tr ++ [pointer_write base, burst_read, .app_error (T (k + 1)).code] } := by
  simp [read_triaxial, tw_master_transmit, tw_master_receive, h1, error_check_ok,
    error_check_fault _ _ h2, Outcome.andThen, pointer_write, burst_read]

theorem decoded_accel_range (r : Response) :
    (-32768 ≤ (decoded_accel r).x ∧ (decoded_accel r).x ≤ 32767) ∧
    (-32768 ≤ (decoded_accel r).y ∧ (decoded_accel r).y ≤ 32767) ∧
    (-32768 ≤ (decoded_accel r).z ∧ (decoded_accel r).z ≤ 32767) := by
  have l : ∀ n : Nat, n % 256 < 256 := fun n => Nat.mod_lt _ (by norm_num)
  exact ⟨axis_value_range _ _ (l _) (l _), axis_value_range _ _ (l _) (l _),
    axis_value_range _ _ (l _) (l _)⟩

theorem decoded_gyro_range (r : Response) :
    (-32768 ≤ (decoded_gyro r).gx ∧ (decoded_gyro r).gx ≤ 32767) ∧
    (-32768 ≤ (decoded_gyro r).gy ∧ (decoded_gyro r).gy ≤ 32767) ∧
    (-32768 ≤ (decoded_gyro r).gz ∧ (decoded_gyro r).gz ≤ 32767) := by
  have l : ∀ n : Nat, n % 256 < 256 := fun n => Nat.mod_lt _ (by norm_num)
  exact ⟨axis_value_range _ _ (l _) (l _), axis_value_range _ _ (l _) (l _),
    axis_value_range _ _ (l _) (l _)⟩

theorem main_loop_fault_free (T : Transport) (hT : fault_free T) (n : Nat) (l : main_locals)
    (k : Nat) (tr : List Event) :
    (main_loop T n { mem := l, calls := k, trace := tr }).isHalted = false ∧
    (main_loop T n { mem := l, calls := k, trace := tr }).state.calls = k + 4 * n ∧
    (main_loop T n { mem := l, calls := k, trace := tr }).state.trace = tr ++ cycles T k n := by
  induction n generalizing l k tr with
  | zero => simp [main_loop, Outcome.isHalted, Outcome.state, cycles]
  | succ n ih =>
    simp only [main_loop]
    rw [loop_body_ok T l k tr (hT _) (hT _) (hT _) (hT _), andThen_returned]
    obtain ⟨h1, h2, h3⟩ := ih
      { accel := decoded_accel (T (k + 1)), gyro := decoded_gyro (T (k + 3)) } (k + 4)
      (tr ++ cycle_events (decoded_accel (T (k + 1))) (decoded_gyro (T (k + 3))))
    refine ⟨h1, ?_, ?_⟩
    · rw [h2]
      omega
    · rw [h3, List.append_assoc]
      rfl

/-! ## The claims of the specification -/

/-- C1: for every six-byte burst `b0 .. b5` the transport returns to a
fault-free read, `mpu_get_accel_raw` and `mpu_get_gyro_raw` return with the
sample whose axis `i` is `(int16)((b[2i] << 8) | b[2i+1])`, which is the
two's-complement big-endian reading of the pair: `256 * b[2i] + b[2i+1]`
when `b[2i] < 128`, and that number less 65536 otherwise. -/
theorem C1_burst_decoded_big_endian (T : Transport) (k : Nat) (tr : List Event)
    (a0 : mpu_data_t) (g0 : mpu_gy_data_t) (b0 b1 b2 b3 b4 b5 : Nat)
    (h1 : (T k).code = 0) (h2 : (T (k + 1)).code = 0)
    (hb : received (T (k + 1)) 6 = [b0, b1, b2, b3, b4, b5]) :
    mpu_get_accel_raw T { mem := a0, calls := k, trace := tr } = .returned
        { mem := { x := to_int16 ((b0 <<< 8) ||| b1), y := to_int16 ((b2 <<< 8) ||| b3),
                   z := to_int16 ((b4 <<< 8) ||| b5) }
          calls := k + 2, trace := tr ++ [pointer_write ACCEL_XOUT_H, burst_read] } ∧
    mpu_get_gyro_raw T { mem := g0, calls := k, trace := tr } = .returned
        { mem := { gx := to_int16 ((b0 <<< 8) ||| b1), gy := to_int16 ((b2 <<< 8) ||| b3),
                   gz := to_int16 ((b4 <<< 8) ||| b5) }
          calls := k + 2, trace := tr ++ [pointer_write GYRO_XOUT_H, burst_read] } ∧
    to_int16 ((b0 <<< 8) ||| b1) = big_endian16 b0 b1 ∧
    to_int16 ((b2 <<< 8) ||| b3) = big_endian16 b2 b3 ∧
    to_int16 ((b4 <<< 8) ||| b5) = big_endian16 b4 b5 := by
  obtain ⟨⟨l0, l1, l2, l3, l4, l5⟩, ha, hg⟩ := decoded_of_received _ _ _ _ _ _ _ hb
  rw [accel_raw_ok T a0 k tr h1 h2, gyro_raw_ok T g0 k tr h1 h2, ha, hg,
    to_int16_shl_or b0 b1 l0 l1, to_int16_shl_or b2 b3 l2 l3, to_int16_shl_or b4 b5 l4 l5]
  exact ⟨rfl, rfl, rfl, rfl, rfl⟩

theorem C1_burst_decoded_big_endian_witness :
    mpu_get_accel_raw (steady [0x12, 0x34, 0x7F, 0xFF, 0xFE, 0x0C])
        { mem := { x := 0, y := 0, z := 0 }, calls := 0, trace := [] } = .returned
        { mem := { x := to_int16 ((0x12 <<< 8) ||| 0x34), y := to_int16 ((0x7F <<< 8) ||| 0xFF),
                   z := to_int16 ((0xFE <<< 8) ||| 0x0C) }
          calls := 0 + 2, trace := [] ++ [pointer_write ACCEL_XOUT_H, burst_read] } ∧
    mpu_get_gyro_raw (steady [0x12, 0x34, 0x7F, 0xFF, 0xFE, 0x0C])
        { mem := { gx := 0, gy := 0, gz := 0 }, calls := 0, trace := [] } = .returned
        { mem := { gx := to_int16 ((0x12 <<< 8) ||| 0x34), gy := to_int16 ((0x7F <<< 8) ||| 0xFF),
                   gz := to_int16 ((0xFE <<< 8) ||| 0x0C) }
          calls := 0 + 2, trace := [] ++ [pointer_write GYRO_XOUT_H, burst_read] } ∧
    to_int16 ((0x12 <<< 8) ||| 0x34) = big_endian16 0x12 0x34 ∧
    to_int16 ((0x7F <<< 8) ||| 0xFF) = big_endian16 0x7F 0xFF ∧
    to_int16 ((0xFE <<< 8) ||| 0x0C) = big_endian16 0xFE 0x0C :=
  C1_burst_decoded_big_endian (steady [0x12, 0x34, 0x7F, 0xFF, 0xFE, 0x0C]) 0 []
    { x := 0, y := 0, z := 0 } { gx := 0, gy := 0, gz := 0 } 0x12 0x34 0x7F 0xFF 0xFE 0x0C
    rfl rfl (by simp [received, steady, List.range_succ])

/-- C2: when no transport call faults and the receive fills the buffer with
`[0x01,0x00, 0xFF,0xFF, 0x80,0x00]`, each of `mpu_get_accel_raw`,
`mpu_get_accel`, `mpu_get_gyro_raw` and `mpu_get_gyro` returns with the
sample x = 256, y = -1, z = -32768. -/
theorem C2_example_burst (T : Transport) (k : Nat) (tr : List Event)
    (a0 : mpu_data_t) (g0 : mpu_gy_data_t)
    (h1 : (T k).code = 0) (h2 : (T (k + 1)).code = 0)
    (hb : received (T (k + 1)) 6 = [0x01, 0x00, 0xFF, 0xFF, 0x80, 0x00]) :
    mpu_get_accel_raw T { mem := a0, calls := k, trace := tr } = .returned
        { mem := { x := 256, y := -1, z := -32768 }
          calls := k + 2, trace := tr ++ [pointer_write ACCEL_XOUT_H, burst_read] } ∧
    mpu_get_accel T { mem := a0, calls := k, trace := tr } = .returned
        { mem := { x := 256, y := -1, z := -32768 }
          calls := k + 2, trace := tr ++ [pointer_write ACCEL_XOUT_H, burst_read] } ∧
    mpu_get_gyro_raw T { mem := g0, calls := k, trace := tr } = .returned
        { mem := { gx := 256, gy := -1, gz := -32768 }
          calls := k + 2, trace := tr ++ [pointer_write GYRO_XOUT_H, burst_read] } ∧
    mpu_get_gyro T { mem := g0, calls := k, trace := tr } = .returned
        { mem := { gx := 256, gy := -1, gz := -32768 }
          calls := k + 2, trace := tr ++ [pointer_write GYRO_XOUT_H, burst_read] } := by
  obtain ⟨-, ha, hg⟩ := decoded_of_received _ _ _ _ _ _ _ hb
  have e1 : big_endian16 0x01 0x00 = 256 := by decide
  have e2 : big_endian16 0xFF 0xFF = -1 := by decide
  have e3 : big_endian16 0x80 0x00 = -32768 := by decide
  rw [e1, e2, e3] at ha hg
  rw [accel_eq_raw, gyro_eq_raw, accel_raw_ok T a0 k tr h1 h2, gyro_raw_ok T g0 k tr h1 h2,
    ha, hg]
  exact ⟨rfl, rfl, rfl, rfl⟩

theorem C2_example_burst_witness :
    mpu_get_accel_raw (steady [0x01, 0x00, 0xFF, 0xFF, 0x80, 0x00])
        { mem := { x := 7, y := 7, z := 7 }, calls := 4, trace := [] } = .returned
        { mem := { x := 256, y := -1, z := -32768 }
          calls := 4 + 2, trace := [] ++ [pointer_write ACCEL_XOUT_H, burst_read] } ∧
    mpu_get_accel (steady [0x01, 0x00, 0xFF, 0xFF, 0x80, 0x00])
        { mem := { x := 7, y := 7, z := 7 }, calls := 4, trace := [] } = .returned
        { mem := { x := 256, y := -1, z := -32768 }
          calls := 4 + 2, trace := [] ++ [pointer_write ACCEL_XOUT_H, burst_read] } ∧
    mpu_get_gyro_raw (steady [0x01, 0x00, 0xFF, 0xFF, 0x80, 0x00])
        { mem := { gx := 9, gy := 9, gz := 9 }, calls := 4, trace := [] } = .returned
        { mem := { gx := 256, gy := -1, gz := -32768 }
          calls := 4 + 2, trace := [] ++ [pointer_write GYRO_XOUT_H, burst_read] } ∧
    mpu_get_gyro (steady [0x01, 0x00, 0xFF, 0xFF, 0x80, 0x00])
        { mem := { gx := 9, gy := 9, gz := 9 }, calls := 4, trace := [] } = .returned
        { mem := { gx := 256, gy := -1, gz := -32768 }
          calls := 4 + 2, trace := [] ++ [pointer_write GYRO_XOUT_H, burst_read] } :=
  C2_example_burst (steady [0x01, 0x00, 0xFF, 0xFF, 0x80, 0x00]) 4 []
    { x := 7, y := 7, z := 7 } { gx := 9, gy := 9, gz := 9 }
    rfl rfl (by simp [received, steady, List.range_succ])

/-- C3: in every fault-free call of `mpu_get_accel_raw` and of
`mpu_get_gyro_raw` the function returns and the bus operations issued are
exactly two, in this order: a transmit to device 0x68 of one byte, the
register pointer (0x3B resp. 0x43), which sends no stop condition and so
does not release the bus, immediately followed by a receive of exactly 6
bytes from device 0x68; the call adds nothing else to the trace, so no
other bus operation and no bus release lies between the two. -/
theorem C3_read_bus_sequence (T : Transport) (k : Nat) (tr : List Event)
    (a0 : mpu_data_t) (g0 : mpu_gy_data_t)
    (h1 : (T k).code = 0) (h2 : (T (k + 1)).code = 0) :
    (∃ e : Event,
      (mpu_get_accel_raw T { mem := a0, calls := k, trace := tr }).isHalted = false ∧
      (mpu_get_accel_raw T { mem := a0, calls := k, trace := tr }).state.trace =
        tr ++ [e, Event.receive 0x68 6] ∧
      (mpu_get_accel_raw T { mem := a0, calls := k, trace := tr }).state.calls = k + 2 ∧
      e = Event.transmit 0x68 [0x3B] true ∧ e.sends_stop = false) ∧
    (∃ e : Event,
      (mpu_get_gyro_raw T { mem := g0, calls := k, trace := tr }).isHalted = false ∧
      (mpu_get_gyro_raw T { mem := g0, calls := k, trace := tr }).state.trace =
        tr ++ [e, Event.receive 0x68 6] ∧
      (mpu_get_gyro_raw T { mem := g0, calls := k, trace := tr }).state.calls = k + 2 ∧
      e = Event.transmit 0x68 [0x43] true ∧ e.sends_stop = false) := by
  rw [accel_raw_ok T a0 k tr h1 h2, gyro_raw_ok T g0 k tr h1 h2]
  exact ⟨⟨_, rfl, rfl, rfl, rfl, rfl⟩, ⟨_, rfl, rfl, rfl, rfl, rfl⟩⟩

theorem C3_read_bus_sequence_witness :
    (∃ e : Event,
      (mpu_get_accel_raw (steady [1, 2, 3, 4, 5, 6])
        { mem := { x := 0, y := 0, z := 0 }, calls := 1, trace := [wake_write] }).isHalted
        = false ∧
      (mpu_get_accel_raw (steady [1, 2, 3, 4, 5, 6])
        { mem := { x := 0, y := 0, z := 0 }, calls := 1, trace := [wake_write] }).state.trace =
        [wake_write] ++ [e, Event.receive 0x68 6] ∧
      (mpu_get_accel_raw (steady [1, 2, 3, 4, 5, 6])
        { mem := { x := 0, y := 0, z := 0 }, calls := 1, trace := [wake_write] }).state.calls
        = 1 + 2 ∧
      e = Event.transmit 0x68 [0x3B] true ∧ e.sends_stop = false) ∧
    (∃ e : Event,
      (mpu_get_gyro_raw (steady [1, 2, 3, 4, 5, 6])
        { mem := { gx := 0, gy := 0, gz := 0 }, calls := 1, trace := [wake_write] }).isHalted
        = false ∧
      (mpu_get_gyro_raw (steady [1, 2, 3, 4, 5, 6])
        { mem := { gx := 0, gy := 0, gz := 0 }, calls := 1, trace := [wake_write] }).state.trace =
        [wake_write] ++ [e, Event.receive 0x68 6] ∧
      (mpu_get_gyro_raw (steady [1, 2, 3, 4, 5, 6])
        { mem := { gx := 0, gy := 0, gz := 0 }, calls := 1, trace := [wake_write] }).state.calls
        = 1 + 2 ∧
      e = Event.transmit 0x68 [0x43] true ∧ e.sends_stop = false) :=
  C3_read_bus_sequence (steady [1, 2, 3, 4, 5, 6]) 1 [wake_write]
    { x := 0, y := 0, z := 0 } { gx := 0, gy := 0, gz := 0 } rfl rfl

/-- C4: in every execution of `main`, followed for any number of loop
passes and with any transport behaviour, the first bus operation is the
transmit to device 0x68 of the two bytes `[0x6B, 0x00]`, every later bus
operation is a register-pointer write or a six-byte receive of the read
functions, and a transmit of `[0x6B, 0x00]` occurs exactly once in the
trace. -/
theorem C4_wake_write_once_first (T : Transport) (locals : main_locals) (n : Nat) :
    (∃ rest, bus_ops (main T locals n).state.trace =
        Event.transmit 0x68 [0x6B, 0x00] false :: rest ∧
      ∀ e ∈ rest, e = Event.transmit 0x68 [0x3B] true ∨ e = Event.transmit 0x68 [0x43] true ∨
        e = Event.receive 0x68 6) ∧
    (main T locals n).state.trace.countP Event.isWakeWrite = 1 := by
  obtain ⟨rest, h1, h2⟩ := main_wake_first T locals n
  refine ⟨⟨rest, h1, h2⟩, ?_⟩
  rw [countP_wake_bus_ops, h1, List.countP_cons_of_pos _ _ (by decide)]
  have hz : rest.countP Event.isWakeWrite = 0 := by
    rw [List.countP_eq_zero]
    intro e he
    rcases h2 e he with h | h | h <;> subst h <;> decide
  rw [hz]

/-- C5: a nonzero code from a transport call halts the program after one
diagnostic. In every execution of `main`: as long as control has not
halted, every transport call made returned zero and no diagnostic was
printed; once it has halted, the last transport call made returned a
nonzero code, every earlier one returned zero, the trace ends with the bus
operation of that call followed by the one diagnostic, which carries the
code, and the state (trace, call count, samples) never changes again. At
each call site a nonzero code halts the function right after the
diagnostic with the sample as it was on entry, so a faulting pointer write
is not followed by the receive; `ERROR_CHECK` on zero returns without
emitting. -/
theorem C5_fault_halts_after_one_diagnostic (T : Transport) (locals : main_locals) (n : Nat) :
    (∀ s, main T locals n = .returned s →
      (∀ k, k < s.calls → (T k).code = 0) ∧ (∀ e ∈ s.trace, e.isDiagnostic = false) ∧
      (bus_ops s.trace).length = s.calls) ∧
    (∀ s, main T locals n = .halted s →
      (∃ pre op, s.trace = pre ++ [op, Event.app_error (T (s.calls - 1)).code] ∧
        op.isBusOp = true ∧ (∀ e ∈ pre, e.isDiagnostic = false) ∧
        0 < s.calls ∧ (T (s.calls - 1)).code ≠ 0 ∧ (∀ k, k < s.calls - 1 → (T k).code = 0) ∧
        (bus_ops s.trace).length = s.calls) ∧
      ∀ n2, n ≤ n2 → main T locals n2 = .halted s) ∧
    (∀ (c : Nat) (m : Machine main_locals), c ≠ 0 →
      ERROR_CHECK c m = .halted { m with trace := m.trace ++ [Event.app_error c] }) ∧
    (∀ m : Machine main_locals, ERROR_CHECK 0 m = .returned m) ∧
    (∀ (l : main_locals) (k : Nat) (tr : List Event), (T k).code ≠ 0 →
      mpu_init T { mem := l, calls := k, trace := tr } = .halted
        { mem := l, calls := k + 1
          trace := tr ++ [.puts "Write 0 to PWR_MGMT_1 reg to wakeup MPU.",
            .transmit 0x68 [0x6B, 0x00] false, .app_error (T k).code] }) ∧
    (∀ (a : mpu_data_t) (k : Nat) (tr : List Event), (T k).code ≠ 0 →
      mpu_get_accel_raw T { mem := a, calls := k, trace := tr } = .halted
        { mem := a, calls := k + 1
          trace := tr ++ [.transmit 0x68 [0x3B] true, .app_error (T k).code] }) ∧
    (∀ (a : mpu_data_t) (k : Nat) (tr : List Event), (T k).code = 0 → (T (k + 1)).code ≠ 0 →
      mpu_get_accel_raw T { mem := a, calls := k, trace := tr } = .halted
        { mem := a, calls := k + 2
          trace := tr ++ [.transmit 0x68 [0x3B] true, .receive 0x68 6,
            .app_error (T (k + 1)).code] }) ∧
    (∀ (g : mpu_gy_data_t) (k : Nat) (tr : List Event), (T k).code ≠ 0 →
      mpu_get_gyro_raw T { mem := g, calls := k, trace := tr } = .halted
        { mem := g, calls := k + 1
          trace := tr ++ [.transmit 0x68 [0x43] true, .app_error (T k).code] }) ∧
    (∀ (g : mpu_gy_data_t) (k : Nat) (tr : List Event), (T k).code = 0 → (T (k + 1)).code ≠ 0 →
      mpu_get_gyro_raw T { mem := g, calls := k, trace := tr } = .halted
        { mem := g, calls := k + 2
          trace := tr ++ [.transmit 0x68 [0x43] true, .receive 0x68 6,
            .app_error (T (k + 1)).code] }) := by
  have hd := main_discipline T locals n
  refine ⟨?_, ?_, fun c m h => error_check_fault c m h, fun m => error_check_ok m,
    fun l k tr h => mpu_init_fault T l k tr h,
    fun a k tr h => accel_raw_fault1 T a k tr h,
    fun a k tr h1 h2 => accel_raw_fault2 T a k tr h1 h2,
    fun g k tr h => gyro_raw_fault1 T g k tr h,
    fun g k tr h1 h2 => gyro_raw_fault2 T g k tr h1 h2⟩
  · intro s h
    rw [h] at hd
    exact hd
  · intro s h
    rw [h] at hd
    exact ⟨hd, fun n2 hn => main_halted_stable T locals n n2 s h hn⟩

theorem C5_fault_halts_after_one_diagnostic_witness :
    main (faulty_at 2 0x20 [1, 2, 3, 4, 5, 6])
        { accel := { x := 0, y := 0, z := 0 }, gyro := { gx := 0, gy := 0, gz := 0 } } 7 =
      .halted
        { mem := { accel := { x := 0, y := 0, z := 0 }, gyro := { gx := 0, gy := 0, gz := 0 } }
          calls := 3
          trace := [.uart_init 250000, .cli_reset, .puts "Initializing TWI_Test Project...\n",
            .tw_init true, .puts "Write 0 to PWR_MGMT_1 reg to wakeup MPU.",
            .transmit 0x68 [0x6B, 0x00] false,
            .puts "--------------- Application Started ---------------\n",
            .puts "Read accelerometer data.", .transmit 0x68 [0x3B] true, .receive 0x68 6,
            .app_error 0x20] } ∧
    mpu_get_gyro_raw (faulty_at 2 0x20 [1, 2, 3, 4, 5, 6])
        { mem := { gx := 5, gy := 6, gz := 7 }, calls := 2, trace := [] } =
      .halted { mem := { gx := 5, gy := 6, gz := 7 }, calls := 2 + 1
                trace := [] ++ [.transmit 0x68 [0x43] true,
                  .app_error (faulty_at 2 0x20 [1, 2, 3, 4, 5, 6] 2).code] } :=
  ⟨((C5_fault_halts_after_one_diagnostic (faulty_at 2 0x20 [1, 2, 3, 4, 5, 6])
      { accel := { x := 0, y := 0, z := 0 }, gyro := { gx := 0, gy := 0, gz := 0 } } 1).2.1
      _ rfl).2 7 (by decide),
   (C5_fault_halts_after_one_diagnostic (faulty_at 2 0x20 [1, 2, 3, 4, 5, 6])
      { accel := { x := 0, y := 0, z := 0 }, gyro := { gx := 0, gy := 0, gz := 0 } }
      0).2.2.2.2.2.2.2.1 { gx := 5, gy := 6, gz := 7 } 2 [] (by decide)⟩

/-- C6: the two read functions are one function up to the base register.
With `read_triaxial base` the read parameterised by the register,
`mpu_get_accel_raw` is `read_triaxial 0x3B` and `mpu_get_gyro_raw` is
`read_triaxial 0x43` under the identification of x, y, z with gx, gy, gz.
For every transport behaviour and start state there are a tail of events, a
sample, a call count and a halting status, none depending on the base
register, such that `read_triaxial base` ends in that status with that
sample and call count, after the transmit of the one byte `base` to device
0x68 followed by the tail, whose only bus operation is the six-byte
receive from device 0x68. -/
theorem C6_reads_are_one_function (T : Transport) (m : Machine mpu_data_t) :
    mpu_get_accel_raw T m = read_triaxial 0x3B T m ∧
    mpu_get_gyro_raw T (m.view as_gyro) =
      (read_triaxial 0x43 T m).view (Machine.view as_gyro) ∧
    ∃ (tail : List Event) (d : mpu_data_t) (c : Nat) (h : Bool),
      (∀ e ∈ tail, e.isBusOp = true → e = Event.receive 0x68 6) ∧
      ∀ base : Nat,
        (read_triaxial base T m).isHalted = h ∧
        (read_triaxial base T m).state.mem = d ∧
        (read_triaxial base T m).state.calls = c ∧
        (read_triaxial base T m).state.trace =
          m.trace ++ Event.transmit 0x68 [base] true :: tail := by
  obtain ⟨a, k, tr⟩ := m
  refine ⟨rfl, ?_, ?_⟩
  · simp only [Machine.view]
    by_cases h1 : (T k).code = 0
    · by_cases h2 : (T (k + 1)).code = 0
      · rw [gyro_raw_ok T _ k tr h1 h2, read_triaxial_ok _ T a k tr h1 h2]
        rfl
      · rw [gyro_raw_fault2 T _ k tr h1 h2, read_triaxial_fault2 _ T a k tr h1 h2]
        rfl
    · rw [gyro_raw_fault1 T _ k tr h1, read_triaxial_fault1 _ T a k tr h1]
      rfl
  · by_cases h1 : (T k).code = 0
    · by_cases h2 : (T (k + 1)).code = 0
      · refine ⟨[burst_read], decoded_accel (T (k + 1)), k + 2, false, ?_, ?_⟩
        · intro e he _
          simpa [burst_read] using he
        · intro base
          rw [read_triaxial_ok base T a k tr h1 h2]
          exact ⟨rfl, rfl, rfl, rfl⟩
      · refine ⟨[burst_read, .app_error (T (k + 1)).code], a, k + 2, true, ?_, ?_⟩
        · intro e he hb
          simp only [List.mem_cons, List.mem_singleton, List.not_mem_nil, or_false] at he
          rcases he with h | h
          · simpa [burst_read] using h
          · subst h
            simp [Event.isBusOp] at hb
        · intro base
          rw [read_triaxial_fault2 base T a k tr h1 h2]
          exact ⟨rfl, rfl, rfl, rfl⟩
    · refine ⟨[.app_error (T k).code], a, k + 1, true, ?_, ?_⟩
      · intro e he hb
        simp only [List.mem_singleton] at he
        subst he
        simp [Event.isBusOp] at hb
      · intro base
        rw [read_triaxial_fault1 base T a k tr h1]
        exact ⟨rfl, rfl, rfl, rfl⟩

/-- C7 (as amended): in every fault-free pass of the loop of `main` the
calls into the environment are exactly, in this order: the line
`Read accelerometer data.`, one acceleration read (pointer 0x3B, six-byte
receive), the lines `Accel X: <x>`, `Accel Y: <y>`, `Accel Z: <z>` with the
sample just read, the line `Read gyro data.`, one angular-rate read
(pointer 0x43, six-byte receive), the lines `Gyro X: <gx>`, `Gyro Y: <gy>`,
`Gyro Z: <gz>`, then one 100 ms delay; every printed value lies in
[-32768, 32767]; and on a transport that never faults the loop never
halts or exits: after any number `n` of passes control is still in the
loop, `4 n` transport calls later, having emitted `n` such cycles. -/
theorem C7_loop_cycle (T : Transport) (l : main_locals) (k : Nat) (tr : List Event) :
    ((T k).code = 0 → (T (k + 1)).code = 0 → (T (k + 2)).code = 0 → (T (k + 3)).code = 0 →
      loop_body T { mem := l, calls := k, trace := tr } = .returned
        { mem := { accel := decoded_accel (T (k + 1)), gyro := decoded_gyro (T (k + 3)) }
          calls := k + 4
          trace := tr ++
            [.puts "Read accelerometer data.",
             .transmit 0x68 [0x3B] true, .receive 0x68 6,
             .printf "Accel X: %d\n" (decoded_accel (T (k + 1))).x,
             .printf "Accel Y: %d\n" (decoded_accel (T (k + 1))).y,
             .printf "Accel Z: %d\n" (decoded_accel (T (k + 1))).z,
             .puts "Read gyro data.",
             .transmit 0x68 [0x43] true, .receive 0x68 6,
             .printf "Gyro X: %d\n" (decoded_gyro (T (k + 3))).gx,
             .printf "Gyro Y: %d\n" (decoded_gyro (T (k + 3))).gy,
             .printf "Gyro Z: %d\n" (decoded_gyro (T (k + 3))).gz,
             .delay_ms 100] }) ∧
    ((-32768 ≤ (decoded_accel (T (k + 1))).x ∧ (decoded_accel (T (k + 1))).x ≤ 32767) ∧
     (-32768 ≤ (decoded_accel (T (k + 1))).y ∧ (decoded_accel (T (k + 1))).y ≤ 32767) ∧
     (-32768 ≤ (decoded_accel (T (k + 1))).z ∧ (decoded_accel (T (k + 1))).z ≤ 32767)) ∧
    ((-32768 ≤ (decoded_gyro (T (k + 3))).gx ∧ (decoded_gyro (T (k + 3))).gx ≤ 32767) ∧
     (-32768 ≤ (decoded_gyro (T (k + 3))).gy ∧ (decoded_gyro (T (k + 3))).gy ≤ 32767) ∧
     (-32768 ≤ (decoded_gyro (T (k + 3))).gz ∧ (decoded_gyro (T (k + 3))).gz ≤ 32767)) ∧
    (fault_free T → ∀ n : Nat,
      (main_loop T n { mem := l, calls := k, trace := tr }).isHalted = false ∧
      (main_loop T n { mem := l, calls := k, trace := tr }).state.calls = k + 4 * n ∧
      (main_loop T n { mem := l, calls := k, trace := tr }).state.trace = tr ++ cycles T k n) :=
  ⟨fun h0 h1 h2 h3 => loop_body_ok T l k tr h0 h1 h2 h3,
   decoded_accel_range _, decoded_gyro_range _,
   fun hT n => main_loop_fault_free T hT n l k tr⟩

theorem C7_loop_cycle_witness :
    loop_body (steady [0x00, 0x10, 0xFF, 0xF0, 0x40, 0x00])
        { mem := { accel := { x := 0, y := 0, z := 0 }, gyro := { gx := 0, gy := 0, gz := 0 } }
          calls := 1, trace := [] } = .returned
        { mem := { accel := { x := 16, y := -16, z := 16384 },
                   gyro := { gx := 16, gy := -16, gz := 16384 } }
          calls := 5
          trace :=
            [.puts "Read accelerometer data.",
             .transmit 0x68 [0x3B] true, .receive 0x68 6,
             .printf "Accel X: %d\n" 16, .printf "Accel Y: %d\n" (-16),
             .printf "Accel Z: %d\n" 16384,
             .puts "Read gyro data.",
             .transmit 0x68 [0x43] true, .receive 0x68 6,
             .printf "Gyro X: %d\n" 16, .printf "Gyro Y: %d\n" (-16),
             .printf "Gyro Z: %d\n" 16384,
             .delay_ms 100] } ∧
    (main_loop (steady [0x00, 0x10, 0xFF, 0xF0, 0x40, 0x00]) 3
        { mem := { accel := { x := 0, y := 0, z := 0 }, gyro := { gx := 0, gy := 0, gz := 0 } }
          calls := 1, trace := [] }).isHalted = false :=
  ⟨(C7_loop_cycle (steady [0x00, 0x10, 0xFF, 0xF0, 0x40, 0x00])
      { accel := { x := 0, y := 0, z := 0 }, gyro := { gx := 0, gy := 0, gz := 0 } } 1 []).1
      rfl rfl rfl rfl,
   ((C7_loop_cycle (steady [0x00, 0x10, 0xFF, 0xF0, 0x40, 0x00])
      { accel := { x := 0, y := 0, z := 0 }, gyro := { gx := 0, gy := 0, gz := 0 } } 1 []).2.2.2
      (fun _ => rfl) 3).1⟩

/-- C7 as stated fails: in the first pass of the loop on a transport that
never faults, the pass returns, but its calls into the environment are not
the listed cycle (read, three `Accel` lines, read, three `Gyro` lines,
delay) for any samples: the pass begins with the line
`Read accelerometer data.`, not with the acceleration read. -/
theorem C7_counterexample :
    (loop_body (steady [0x01, 0x00, 0xFF, 0xFF, 0x80, 0x00])
      { mem := { accel := { x := 0, y := 0, z := 0 }, gyro := { gx := 0, gy := 0, gz := 0 } }
        calls := 1, trace := [] }).isHalted = false ∧
    (loop_body (steady [0x01, 0x00, 0xFF, 0xFF, 0x80, 0x00])
      { mem := { accel := { x := 0, y := 0, z := 0 }, gyro := { gx := 0, gy := 0, gz := 0 } }
        calls := 1, trace := [] }).state.trace.head? =
      some (Event.puts "Read accelerometer data.") ∧
    ¬ ∃ (a : mpu_data_t) (g : mpu_gy_data_t),
      (loop_body (steady [0x01, 0x00, 0xFF, 0xFF, 0x80, 0x00])
        { mem := { accel := { x := 0, y := 0, z := 0 }, gyro := { gx := 0, gy := 0, gz := 0 } }
          calls := 1, trace := [] }).state.trace = cycle_as_listed a g := by
  rw [loop_body_ok (steady [0x01, 0x00, 0xFF, 0xFF, 0x80, 0x00]) _ 1 [] rfl rfl rfl rfl]
  refine ⟨rfl, rfl, ?_⟩
  rintro ⟨a, g, h⟩
  have hl := congrArg List.length h
  simp [Outcome.state, cycle_events, cycle_as_listed] at hl

/-- C8: the self-assignments of `mpu_get_accel` and `mpu_get_gyro` change
nothing: for every transport behaviour and start state, `mpu_get_accel`
has the outcome of `mpu_get_accel_raw` (same trace, same call count, same
sample, same halting status), and `mpu_get_gyro` that of
`mpu_get_gyro_raw`. -/
theorem C8_self_assignments_are_no_ops :
    (∀ (T : Transport) (m : Machine mpu_data_t), mpu_get_accel T m = mpu_get_accel_raw T m) ∧
    (∀ (T : Transport) (m : Machine mpu_gy_data_t), mpu_get_gyro T m = mpu_get_gyro_raw T m) :=
  ⟨accel_eq_raw, gyro_eq_raw⟩

/-- C9: the axis decode loses no information. For bytes `hi`, `lo` and
`v = (int16)(hi << 8 | lo)`: `hi = (uint16)v >> 8`, `lo = (uint16)v & 0xFF`,
`v` lies in the int16 range and is negative exactly when `hi >= 0x80`;
two byte pairs with the same `v` are equal; and every int16 value is the
decode of some byte pair. -/
theorem C9_decode_bijective :
    (∀ hi lo : Nat, hi < 256 → lo < 256 →
      to_uint16 (axis_value INT_WIDTH hi lo) >>> 8 = hi ∧
      to_uint16 (axis_value INT_WIDTH hi lo) &&& 0xFF = lo ∧
      -32768 ≤ axis_value INT_WIDTH hi lo ∧ axis_value INT_WIDTH hi lo ≤ 32767 ∧
      (axis_value INT_WIDTH hi lo < 0 ↔ 0x80 ≤ hi)) ∧
    (∀ hi lo hi2 lo2 : Nat, hi < 256 → lo < 256 → hi2 < 256 → lo2 < 256 →
      axis_value INT_WIDTH hi lo = axis_value INT_WIDTH hi2 lo2 → hi = hi2 ∧ lo = lo2) ∧
    (∀ v : Int, -32768 ≤ v → v ≤ 32767 →
      ∃ hi lo : Nat, hi < 256 ∧ lo < 256 ∧ axis_value INT_WIDTH hi lo = v) := by
  refine ⟨?_, ?_, ?_⟩
  · intro hi lo hhi hlo
    have hr := axis_value_range hi lo hhi hlo
    have hu := to_uint16_axis hi lo hhi hlo
    unfold INT_WIDTH
    refine ⟨?_, ?_, hr.1, hr.2, ?_⟩
    · rw [hu, Nat.shiftRight_eq_div_pow]
      omega
    · have e : (0xFF : Nat) = 2 ^ 8 - 1 := by norm_num
      rw [hu, e, Nat.and_pow_two_sub_one_eq_mod]
      omega
    · rw [axis_value_16 hi lo hhi hlo]
      split <;> constructor <;> intro h <;> omega
  · intro hi lo hi2 lo2 hhi hlo hhi2 hlo2 h
    unfold INT_WIDTH at h
    have h1 := to_uint16_axis hi lo hhi hlo
    have h2 := to_uint16_axis hi2 lo2 hhi2 hlo2
    rw [h, h2] at h1
    omega
  · intro v hlo hhi
    refine ⟨to_uint16 v / 256, to_uint16 v % 256, ?_, ?_, ?_⟩
    · unfold to_uint16
      omega
    · omega
    · unfold INT_WIDTH
      have hb : to_uint16 v / 256 < 256 := by unfold to_uint16; omega
      rw [axis_value_16 _ _ hb (Nat.mod_lt _ (by norm_num))]
      unfold to_uint16
      split <;> omega

theorem C9_decode_bijective_witness :
    (to_uint16 (axis_value INT_WIDTH 0x80 0x01) >>> 8 = 0x80 ∧
      to_uint16 (axis_value INT_WIDTH 0x80 0x01) &&& 0xFF = 0x01 ∧
      -32768 ≤ axis_value INT_WIDTH 0x80 0x01 ∧ axis_value INT_WIDTH 0x80 0x01 ≤ 32767 ∧
      (axis_value INT_WIDTH 0x80 0x01 < 0 ↔ 0x80 ≤ 0x80)) ∧
    (∃ hi lo : Nat, hi < 256 ∧ lo < 256 ∧ axis_value INT_WIDTH hi lo = -2) :=
  ⟨C9_decode_bijective.1 0x80 0x01 (by decide) (by decide),
   C9_decode_bijective.2.2 (-2) (by decide) (by decide)⟩

/-- C10: the decoded value does not depend on the width of `int`. For bytes
`hi`, `lo`, evaluating `hi << 8 | lo` in 16-bit `int` arithmetic (where
`hi >= 0x80` shifts into the sign bit) and converting to int16 gives the
same value as evaluating it in 32-bit arithmetic (where nothing is lost in
the shift) and truncating to int16; the same holds for any width of at
least 16 bits. -/
theorem C10_int_width_independent (hi lo : Nat) (hhi : hi < 256) (hlo : lo < 256) :
    axis_value 16 hi lo = axis_value 32 hi lo ∧
    int_shl 32 hi 8 = hi <<< 8 ∧
    (0x80 ≤ hi → 2 ^ 15 ≤ int_shl 16 hi 8) ∧
    ∀ w, 16 ≤ w → axis_value w hi lo = axis_value 16 hi lo := by
  have hs : hi <<< 8 < 2 ^ 16 := by
    rw [Nat.shiftLeft_eq]
    norm_num
    omega
  refine ⟨?_, ?_, ?_, ?_⟩
  · rw [axis_value_16 hi lo hhi hlo, axis_value_32 hi lo hhi hlo]
  · unfold int_shl
    exact Nat.mod_eq_of_lt (Nat.lt_of_lt_of_le hs (by norm_num))
  · intro h
    unfold int_shl
    rw [Nat.mod_eq_of_lt hs, Nat.shiftLeft_eq]
    norm_num
    omega
  · intro w hw
    unfold axis_value int_shl
    have h2 : 2 ^ 16 ≤ 2 ^ w := Nat.pow_le_pow_right (by norm_num) hw
    rw [Nat.mod_eq_of_lt hs, Nat.mod_eq_of_lt (Nat.lt_of_lt_of_le hs h2)]

theorem C10_int_width_independent_witness :
    axis_value 16 0xFF 0x9C = axis_value 32 0xFF 0x9C ∧
    int_shl 32 0xFF 8 = 0xFF <<< 8 ∧
    (0x80 ≤ 0xFF → 2 ^ 15 ≤ int_shl 16 0xFF 8) ∧
    ∀ w, 16 ≤ w → axis_value w 0xFF 0x9C = axis_value 16 0xFF 0x9C :=
  C10_int_width_independent 0xFF 0x9C (by decide) (by decide)

end Mpu
